import Mathlib

/-!
Shallow embedding of listen.py: the transcription task ordering, the
wake-word check, the silence test, and the main processing loop with its
context buffer, active-conversation assembly, silence accounting,
conversation finalization and periodic long transcription.

Modelling conventions: audio samples are integers on a fixed amplitude
grid with the silence threshold carried as an explicit fraction (see
is_silence), transcripts are strings, the speech-to-text collaborator is an
opaque function that either returns text or fails, and the asynchronous
completion of transcription tasks is an oracle from task id to optional
transcript, one oracle per polling pass, so every interleaving of
completion times corresponds to some choice of oracles.  Task ids in the
loop model are consecutive naturals (the source uses unique strings built
from the clock; only identity matters).  Filesystem writes are recorded as
values in the state (saved conversations, periodic transcripts) instead of
files.
-/

namespace ListenPy

/-- Priority levels (class Priority): HIGH = 1, for short chunks used in
wake word detection. -/
def Priority.HIGH : Int := 1

/-- Priority levels (class Priority): LOW = 2, for long transcriptions. -/
def Priority.LOW : Int := 2

/-- TranscriptionTask: audio file reference, optional language hint,
priority, task id, submission timestamp (time.time, a real clock value,
modelled as a rational). -/
structure TranscriptionTask where
  audioFile : String
  language : Option String
  priority : Int
  taskId : String
  timestamp : Rat
deriving Repr

/-- TranscriptionTask.__lt__: compare priority first, then timestamp. -/
def TranscriptionTask.lt (a b : TranscriptionTask) : Bool :=
  if a.priority != b.priority then decide (a.priority < b.priority)
  else decide (a.timestamp < b.timestamp)

/-- The priority queue hands the dispatcher a minimal pending task with
respect to TranscriptionTask.lt (queue.PriorityQueue backed by a heap);
ties are resolved arbitrarily by the heap, modelled here as first-minimal. -/
def dequeueNext : List TranscriptionTask → Option TranscriptionTask
  | [] => none
  | t :: ts =>
      some (ts.foldl (fun m u => if TranscriptionTask.lt u m then u else m) t)

/-- TranscriptionService._transcribe_task: call the opaque collaborator,
strip surrounding whitespace from the text, and on any collaborator
failure swallow the error and return the empty string. -/
def transcribe_task (collab : String → Option String → Except String String)
    (audioFile : String) (language : Option String) : String :=
  match collab audioFile language with
  | Except.ok text => text.trim
  | Except.error _ => ""

/-- Audio parameter: duration in seconds of each chunk (BUFFER_DURATION). -/
def BUFFER_DURATION : Nat := 5

/-- Audio parameter: seconds of context kept before the wake word
(CONTEXT_DURATION). -/
def CONTEXT_DURATION : Nat := 30

/-- Audio parameter: the silence amplitude threshold
SILENCE_THRESHOLD = 0.01, carried as the fraction 1 / 100: numerator. -/
def SILENCE_THRESHOLD_NUM : Nat := 1

/-- Denominator of the silence amplitude threshold 0.01 = 1 / 100. -/
def SILENCE_THRESHOLD_DEN : Nat := 100

/-- Audio parameter: seconds of silence that end active listening
(SILENCE_DURATION). -/
def SILENCE_DURATION : Nat := 3

/-- is_silence: mean absolute amplitude below the threshold,
np.mean(np.abs(x)) < threshold.  Samples sit on an integer grid (a float32
amplitude vector scales to integers, rescaling the threshold fraction by
the same factor, which preserves the inequality), the threshold is the
fraction thrNum / thrDen, and the comparison is stated with the division
and the fraction cross-multiplied:
mean |a| < thrNum / thrDen iff thrDen * sum |a| < thrNum * length.  For
empty data both sides are 0 and the test is false, agreeing with np.mean
of an empty array being nan (and nan < t false). -/
def is_silence (audioData : List Int) (thrNum thrDen : Nat) : Bool :=
  decide (thrDen * (audioData.map Int.natAbs).sum < thrNum * audioData.length)

/-- Does the character list start with the given needle. -/
def startsWith : List Char → List Char → Bool
  | [], _ => true
  | _ :: _, [] => false
  | a :: as, b :: bs => a == b && startsWith as bs

/-- Python substring containment (needle in hay) over character lists. -/
def hasSubstr (needle : List Char) : List Char → Bool
  | [] => needle.isEmpty
  | c :: cs => startsWith needle (c :: cs) || hasSubstr needle cs

/-- The trigger test: "goose" in text.lower().  Char.toLower agrees with
Python str.lower on the ASCII range relevant to the trigger word. -/
def gooseIn (text : String) : Bool :=
  hasSubstr "goose".toList (text.toList.map Char.toLower)

/-- contains_wake_word: if the lowercased text contains "goose", ask the
classifier (when one is supplied); otherwise, and also when no classifier
is supplied, return False. -/
def contains_wake_word (text : String) (classifier : Option (String → Bool)) : Bool :=
  if gooseIn text then
    match classifier with
    | some c => c text
    | none => false
  else false

/-- How many times contains_wake_word invokes the classifier on the given
text: once when the trigger substring is present and a classifier is
supplied, never otherwise. -/
def wakeClassifierCalls (text : String) (classifier : Option (String → Bool)) : Nat :=
  if gooseIn text then
    match classifier with
    | some _ => 1
    | none => 0
  else 0

/-- One chunk record as stored by main: the tuple
(audio_data, temp_file, transcript).  audio is none for periodic
long-window tasks, whose chunk_info is (None, long_file, None); the
transcript is none until the result is filled in.  Files are identified by
a numeric id. -/
structure ChunkInfo where
  audio : Option (List Int)
  fileId : Nat
  transcript : Option String
deriving Repr, DecidableEq

/-- A persisted conversation artifact: the per-chunk audio buffers in the
order they are concatenated into the saved wav, and the saved transcript
(space join of the nonempty per-chunk transcripts in the same order). -/
structure SavedConversation where
  audioParts : List (Option (List Int))
  transcript : String
deriving Repr, DecidableEq

/-- One entry of the pending_tasks dictionary: task id, chunk_info,
processed flag, the is_long marker of periodic tasks and their timestamp
label.  The dictionary preserves insertion order, so it is modelled as a
list in insertion order. -/
structure PendingTask where
  taskId : Nat
  chunk : ChunkInfo
  processed : Bool
  isLong : Bool
  longStamp : Nat
deriving Repr, DecidableEq

/-- The command line arguments the loop consults, plus the wake classifier
collaborator. -/
structure Config where
  contextSeconds : Nat
  silenceSeconds : Nat
  classifier : Option (String → Bool)

/-- context_chunks = int(args.context_seconds / BUFFER_DURATION); for
nonnegative integers Python truncation is floor division. -/
def contextChunks (cfg : Config) : Nat := cfg.contextSeconds / BUFFER_DURATION

/-- The silence chunk threshold args.silence_seconds // BUFFER_DURATION
used at the finalization test (floor division in the source). -/
def silenceChunks (cfg : Config) : Nat := cfg.silenceSeconds / BUFFER_DURATION

/-- deque(maxlen = n) append: add on the right, and when the size would
exceed n drop from the left. -/
def dequeAppend {α : Type} (n : Nat) (buf : List α) (x : α) : List α :=
  if n < (buf ++ [x]).length then (buf ++ [x]).drop ((buf ++ [x]).length - n)
  else buf ++ [x]

/-- The transcripts collected at finalization: chunk transcripts that are
present and truthy (Python skips both None and the empty string). -/
def nonEmptyTranscripts (chunks : List ChunkInfo) : List String :=
  chunks.filterMap fun c =>
    match c.transcript with
    | some t => if t = "" then none else some t
    | none => none

/-- The listening-state part of the loop state mutated while processing
one resolved transcript: is_active_listening, context_buffer,
active_conversation_chunks, silence_counter, the saved conversation
artifacts and conversation_counter. -/
structure Core where
  isActive : Bool
  contextBuffer : List ChunkInfo
  activeChunks : List ChunkInfo
  silenceCounter : Nat
  conversations : List SavedConversation
  conversationCounter : Nat
deriving Repr, DecidableEq

/-- Processing of one resolved transcript inside the polling loop of main
(lines 386-502).  currentIsSilence is the is_silence flag of the segment
captured in the current iteration (the source computes it once per
iteration from the freshly captured audio and consults that same variable
for every transcript resolved during the iteration).  In active mode:
append the chunk to the conversation, update the silence counter from
currentIsSilence, and finalize when the counter reaches the floor
threshold, concatenating context_buffer and then active_conversation_chunks
into the saved artifact.  In passive mode: append the chunk to the context
buffer and run the wake-word gate; on a wake, seed
active_conversation_chunks with a copy of the context buffer. -/
def handleChunk (cfg : Config) (currentIsSilence : Bool) (chunk : ChunkInfo)
    (transcript : String) (c : Core) : Core :=
  if c.isActive then
    let act := c.activeChunks ++ [chunk]
    let sc := if currentIsSilence then c.silenceCounter + 1 else 0
    if silenceChunks cfg ≤ sc then
      let allChunks := c.contextBuffer ++ act
      let allAudio := allChunks.map fun ch => ch.audio
      if allAudio.isEmpty then
        { c with isActive := false, activeChunks := [], silenceCounter := 0 }
      else
        { c with
          isActive := false,
          activeChunks := [],
          silenceCounter := 0,
          conversations := c.conversations ++
            [{ audioParts := allAudio,
               transcript := String.intercalate " " (nonEmptyTranscripts allChunks) }],
          conversationCounter := c.conversationCounter + 1 }
    else
      { c with activeChunks := act, silenceCounter := sc }
  else
    let ctx := dequeAppend (contextChunks cfg) c.contextBuffer chunk
    if transcript != "" && contains_wake_word transcript cfg.classifier then
      { c with
        contextBuffer := ctx,
        isActive := true,
        activeChunks := ctx,
        silenceCounter := 0 }
    else
      { c with contextBuffer := ctx }

/-- The polling pass over pending_tasks (lines 372-502): walk the entries
in insertion order; for each not yet processed entry poll its result (the
oracle res); when a result is available fill the transcript into the
chunk_info, mark it processed, record its id in completed_tasks and hand
the chunk to handleChunk.  The source does not test is_long here, so
periodic long tasks whose result is available are handled as ordinary
chunks by this pass.  Returns the updated pending list, the updated core
state and completed_tasks in visit order. -/
def genericPass (cfg : Config) (currentIsSilence : Bool) (res : Nat → Option String) :
    List PendingTask → Core → List PendingTask × Core × List Nat
  | [], c => ([], c, [])
  | task :: rest, c =>
    if task.processed then
      let r := genericPass cfg currentIsSilence res rest c
      (task :: r.1, r.2.1, r.2.2)
    else
      match res task.taskId with
      | none =>
        let r := genericPass cfg currentIsSilence res rest c
        (task :: r.1, r.2.1, r.2.2)
      | some t =>
        let r := genericPass cfg currentIsSilence res rest
          (handleChunk cfg currentIsSilence { task.chunk with transcript := some t } t c)
        ({ task with
            chunk := { task.chunk with transcript := some t },
            processed := true } :: r.1, r.2.1, task.taskId :: r.2.2)

/-- The dedicated pass over pending long transcription tasks
(lines 549-568): for an unprocessed is_long entry whose result is
available, mark it processed and persist the transcript as the periodic
artifact (recorded as a (stamp, transcript) pair).  The ids this pass adds
to completed_tasks in the source are never consulted again (the deletion
loop already ran and completed_tasks is rebuilt next iteration), so
marking processed suffices. -/
def longPass (res : Nat → Option String) :
    List PendingTask → List PendingTask × List (Nat × String)
  | [] => ([], [])
  | task :: rest =>
    if task.isLong && !task.processed then
      match res task.taskId with
      | some t =>
        let r := longPass res rest
        ({ task with processed := true } :: r.1, (task.longStamp, t) :: r.2)
      | none =>
        let r := longPass res rest
        (task :: r.1, r.2)
    else
      let r := longPass res rest
      (task :: r.1, r.2)

/-- The chunks a polling pass will resolve, in the order the pass visits
them: the unprocessed entries whose oracle result is available, each with
its transcript filled in. -/
def resolvedChunks (res : Nat → Option String) (pending : List PendingTask) :
    List ChunkInfo :=
  pending.filterMap fun task =>
    if task.processed then none
    else
      match res task.taskId with
      | some t => some { task.chunk with transcript := some t }
      | none => none

/-- The whole mutable state of the main loop. -/
structure LoopState where
  isActive : Bool
  contextBuffer : List ChunkInfo
  activeChunks : List ChunkInfo
  silenceCounter : Nat
  pending : List PendingTask
  conversations : List SavedConversation
  periodicTranscripts : List (Nat × String)
  conversationCounter : Nat
  nextId : Nat
deriving Repr

/-- The core projection of a loop state. -/
def LoopState.core (st : LoopState) : Core :=
  { isActive := st.isActive, contextBuffer := st.contextBuffer,
    activeChunks := st.activeChunks, silenceCounter := st.silenceCounter,
    conversations := st.conversations,
    conversationCounter := st.conversationCounter }

/-- The state at the start of main: passive, everything empty. -/
def initialState : LoopState :=
  { isActive := false, contextBuffer := [], activeChunks := [],
    silenceCounter := 0, pending := [], conversations := [],
    periodicTranscripts := [], conversationCounter := 0, nextId := 0 }

/-- The environment of one main-loop iteration that captured audio: the
captured samples, the id of the temp file they are saved to, the oracle
res1 answering the polls of the generic pass, the oracle res2 answering
the polls of the dedicated long pass of the same iteration, and whether
the periodic timer is due this iteration (with the file id and timestamp
label the periodic snapshot would use). -/
structure IterInput where
  audio : List Int
  fileId : Nat
  res1 : Nat → Option String
  res2 : Nat → Option String
  periodicDue : Bool
  periodicFileId : Nat
  periodicStamp : Nat

/-- One iteration of the while loop of main in which audio was collected
(lines 329-576): compute the silence flag of the captured segment, submit
it as a HIGH priority task appended to pending, run the generic polling
pass, delete the entries recorded in completed_tasks, then if the periodic
timer is due and the buffer is nonempty and the state passive submit the
LOW priority long task, and finally run the dedicated long pass. -/
def stepIter (cfg : Config) (inp : IterInput) (st : LoopState) : LoopState :=
  let currentIsSilence := is_silence inp.audio SILENCE_THRESHOLD_NUM SILENCE_THRESHOLD_DEN
  let segTask : PendingTask :=
    { taskId := st.nextId, chunk := { audio := some inp.audio, fileId := inp.fileId, transcript := none },
      processed := false, isLong := false, longStamp := 0 }
  let pending0 := st.pending ++ [segTask]
  let r := genericPass cfg currentIsSilence inp.res1 pending0 st.core
  let c1 := r.2.1
  let completed := r.2.2
  let p2 := r.1.filter fun tk => !(completed.contains tk.taskId)
  let submitLong := inp.periodicDue && !c1.contextBuffer.isEmpty && !c1.isActive
  let p3 :=
    if submitLong then
      p2 ++ [{ taskId := st.nextId + 1,
               chunk := { audio := none, fileId := inp.periodicFileId, transcript := none },
               processed := false, isLong := true, longStamp := inp.periodicStamp }]
    else p2
  let r2 := longPass inp.res2 p3
  { isActive := c1.isActive, contextBuffer := c1.contextBuffer,
    activeChunks := c1.activeChunks, silenceCounter := c1.silenceCounter,
    pending := r2.1, conversations := c1.conversations,
    periodicTranscripts := st.periodicTranscripts ++ r2.2,
    conversationCounter := c1.conversationCounter,
    nextId := st.nextId + (if submitLong then 2 else 1) }

/-- A run of the main loop over the given iteration environments. -/
def runIters (cfg : Config) (inps : List IterInput) (st : LoopState) : LoopState :=
  inps.foldl (fun s i => stepIter cfg i s) st

/-- An oracle under which no poll returns a result. -/
def noRes : Nat → Option String := fun _ => none

/-- Default arguments with no classifier supplied. -/
def cfgNone : Config :=
  { contextSeconds := CONTEXT_DURATION, silenceSeconds := SILENCE_DURATION,
    classifier := none }

/-- Default arguments with a classifier that always answers positively. -/
def cfgTrue : Config :=
  { contextSeconds := CONTEXT_DURATION, silenceSeconds := SILENCE_DURATION,
    classifier := some fun _ => true }

/-- Arguments with silence-seconds 10 (threshold 2 chunks) and an
always-positive classifier. -/
def cfgSil10 : Config :=
  { contextSeconds := CONTEXT_DURATION, silenceSeconds := 10,
    classifier := some fun _ => true }

/-- A passive run in which the transcript of the segment captured first
(task id 0, file 1) resolves one iteration after the transcript of the
segment captured second (task id 1, file 2). -/
def run1 : LoopState :=
  runIters cfgNone
    [ { audio := [1], fileId := 1, res1 := noRes, res2 := noRes,
        periodicDue := false, periodicFileId := 0, periodicStamp := 0 },
      { audio := [1], fileId := 2,
        res1 := fun i => if i = 1 then some "bee" else none, res2 := noRes,
        periodicDue := false, periodicFileId := 0, periodicStamp := 0 },
      { audio := [1], fileId := 3,
        res1 := fun i => if i = 0 then some "aye" else none, res2 := noRes,
        periodicDue := false, periodicFileId := 0, periodicStamp := 0 } ]
    initialState

/-- A run with default arguments: a wake segment (audio [1], transcript
containing the trigger word, resolving immediately) followed by one
non-silent active segment (audio [2], transcript resolving immediately). -/
def run23 : LoopState :=
  runIters cfgTrue
    [ { audio := [1], fileId := 1,
        res1 := fun i => if i = 0 then some "hey goose" else none, res2 := noRes,
        periodicDue := false, periodicFileId := 0, periodicStamp := 0 },
      { audio := [2], fileId := 2,
        res1 := fun i => if i = 1 then some "hello there" else none, res2 := noRes,
        periodicDue := false, periodicFileId := 0, periodicStamp := 0 } ]
    initialState

/-- A passive run in which a periodic long task (id 2, file 100, stamp 7)
is submitted in the second iteration and its result becomes available to
the generic polling pass of the third iteration. -/
def run4 : LoopState :=
  runIters cfgNone
    [ { audio := [1], fileId := 1,
        res1 := fun i => if i = 0 then some "ambient room noise" else none,
        res2 := noRes, periodicDue := false, periodicFileId := 0, periodicStamp := 0 },
      { audio := [1], fileId := 2, res1 := noRes, res2 := noRes,
        periodicDue := true, periodicFileId := 100, periodicStamp := 7 },
      { audio := [1], fileId := 3,
        res1 := fun i => if i = 2 then some "periodic ambient text" else none,
        res2 := noRes, periodicDue := false, periodicFileId := 0, periodicStamp := 0 } ]
    initialState

/-- An active run with silence-seconds 10: a wake segment, then a silent
segment (audio [0]) whose transcript resolves only in the next iteration,
while the segment captured in that next iteration (audio [1]) is not
silent. -/
def run8 : LoopState :=
  runIters cfgSil10
    [ { audio := [1], fileId := 1,
        res1 := fun i => if i = 0 then some "hey goose" else none, res2 := noRes,
        periodicDue := false, periodicFileId := 0, periodicStamp := 0 },
      { audio := [0], fileId := 2, res1 := noRes, res2 := noRes,
        periodicDue := false, periodicFileId := 0, periodicStamp := 0 },
      { audio := [1], fileId := 3,
        res1 := fun i => if i = 1 then some "um" else none, res2 := noRes,
        periodicDue := false, periodicFileId := 0, periodicStamp := 0 } ]
    initialState

/-- A sample chunk record. -/
def chunkA : ChunkInfo := { audio := some [1], fileId := 1, transcript := none }

/-- Another sample chunk record. -/
def chunkB : ChunkInfo := { audio := some [2], fileId := 2, transcript := some "hi" }

/-- A sample core state in active mode. -/
def coreActive : Core :=
  { isActive := true, contextBuffer := [chunkA], activeChunks := [chunkA],
    silenceCounter := 0, conversations := [], conversationCounter := 0 }

/-- A HIGH priority sample task. -/
def taskH : TranscriptionTask :=
  { audioFile := "a.wav", language := none, priority := Priority.HIGH,
    taskId := "t1", timestamp := 5 }

/-- A LOW priority sample task submitted earlier than taskH. -/
def taskL : TranscriptionTask :=
  { audioFile := "b.wav", language := none, priority := Priority.LOW,
    taskId := "t2", timestamp := 3 }

/-- A single-entry pending list holding chunkA under task id 0. -/
def pendA : List PendingTask :=
  [{ taskId := 0, chunk := chunkA, processed := false, isLong := false,
     longStamp := 0 }]

/-- An oracle that resolves task 0 to the transcript "aye". -/
def resAye : Nat → Option String := fun i => if i = 0 then some "aye" else none

/-- An oracle that resolves task 0 to the transcript "um". -/
def resUm : Nat → Option String := fun i => if i = 0 then some "um" else none

/-- Without a classifier the wake-word check always answers false. -/
theorem contains_wake_word_none (t : String) : contains_wake_word t none = false := by
  unfold contains_wake_word
  split <;> rfl

/-- A bounded append never grows the buffer past the bound. -/
theorem dequeAppend_length_le {α : Type} (n : Nat) (buf : List α) (x : α)
    (h : buf.length ≤ n) : (dequeAppend n buf x).length ≤ n := by
  unfold dequeAppend
  split
  next h1 =>
    simp only [List.length_drop, List.length_append, List.length_cons,
      List.length_nil] at *
    omega
  next h1 =>
    simp only [List.length_append, List.length_cons, List.length_nil] at *
    omega

/-- Any sequence of bounded appends starting within the bound stays within
the bound. -/
theorem dequeFold_le {α : Type} (n : Nat) (xs : List α) :
    ∀ buf : List α, buf.length ≤ n → ((xs.foldl (dequeAppend n) buf).length ≤ n) := by
  induction xs with
  | nil => intro buf h; simpa using h
  | cons x rest ih =>
    intro buf h
    simp only [List.foldl_cons]
    exact ih _ (dequeAppend_length_le n buf x h)

/-- Appending to a full buffer of positive bound drops exactly the oldest
entry. -/
theorem dequeAppend_evict {α : Type} (n : Nat) (buf : List α) (x : α)
    (hn : 0 < n) (h : buf.length = n) :
    dequeAppend n buf x = buf.drop 1 ++ [x] := by
  unfold dequeAppend
  have hlen : (buf ++ [x]).length = n + 1 := by simp [h]
  rw [if_pos (by omega)]
  have h1 : (buf ++ [x]).length - n = 1 := by omega
  rw [h1]
  cases buf with
  | nil => simp at h; omega
  | cons b bs => simp

/-- A HIGH task is smaller than a LOW task regardless of timestamps. -/
theorem lt_of_high_low (a b : TranscriptionTask)
    (ha : a.priority = Priority.HIGH) (hb : b.priority = Priority.LOW) :
    TranscriptionTask.lt a b = true := by
  simp [TranscriptionTask.lt, ha, hb, Priority.HIGH, Priority.LOW]

/-- A LOW task is never smaller than a HIGH task. -/
theorem not_lt_of_low_high (a b : TranscriptionTask)
    (ha : a.priority = Priority.LOW) (hb : b.priority = Priority.HIGH) :
    TranscriptionTask.lt a b = false := by
  simp [TranscriptionTask.lt, ha, hb, Priority.HIGH, Priority.LOW]

/-- The minimum fold behind dequeueNext returns a HIGH task whenever its
accumulator is HIGH or a HIGH task occurs in the list, provided every
priority in sight is HIGH or LOW. -/
theorem dequeueFold_high (ts : List TranscriptionTask) :
    ∀ acc : TranscriptionTask,
      (acc.priority = Priority.HIGH ∨ ∃ h ∈ ts, h.priority = Priority.HIGH) →
      (acc.priority = Priority.HIGH ∨ acc.priority = Priority.LOW) →
      (∀ h ∈ ts, h.priority = Priority.HIGH ∨ h.priority = Priority.LOW) →
      (ts.foldl (fun m u => if TranscriptionTask.lt u m then u else m) acc).priority
        = Priority.HIGH := by
  induction ts with
  | nil =>
    intro acc hinv _ _
    rcases hinv with h | ⟨h, hm, _⟩
    · simpa using h
    · cases hm
  | cons u rest ih =>
    intro acc hinv haccp hall
    simp only [List.foldl_cons]
    have hup : u.priority = Priority.HIGH ∨ u.priority = Priority.LOW :=
      hall u (List.mem_cons_self u rest)
    have hrest : ∀ h ∈ rest, h.priority = Priority.HIGH ∨ h.priority = Priority.LOW :=
      fun h hm => hall h (List.mem_cons_of_mem u hm)
    have hacc2p : (if TranscriptionTask.lt u acc then u else acc).priority = Priority.HIGH
        ∨ (if TranscriptionTask.lt u acc then u else acc).priority = Priority.LOW := by
      split
      · exact hup
      · exact haccp
    apply ih _ _ hacc2p hrest
    rcases haccp with haccH | haccL
    · left
      split
      next hlt =>
        rcases hup with huH | huL
        · exact huH
        · rw [not_lt_of_low_high u acc huL haccH] at hlt
          cases hlt
      next hlt => exact haccH
    · rcases hinv with haccH | ⟨h, hm, hH⟩
      · rw [haccH] at haccL
        cases haccL
      · rcases List.mem_cons.mp hm with rfl | hmrest
        · left
          rw [if_pos (by rw [lt_of_high_low h acc hH haccL])]
          exact hH
        · right
          exact ⟨h, hmrest, hH⟩

/-- C5: the dequeue order of the transcription priority queue compares
priority first (a HIGH task wins against any LOW task regardless of
timestamps), breaks ties between equal priorities by the earlier
submission timestamp, and therefore a minimal pending task handed to a
worker is HIGH whenever any HIGH task is pending (among HIGH/LOW tasks). -/
theorem claim5_priority_order :
    (∀ a b : TranscriptionTask, a.priority = Priority.HIGH →
      b.priority = Priority.LOW →
      TranscriptionTask.lt a b = true ∧ TranscriptionTask.lt b a = false)
    ∧ (∀ a b : TranscriptionTask, a.priority = b.priority →
      a.timestamp < b.timestamp →
      TranscriptionTask.lt a b = true ∧ TranscriptionTask.lt b a = false)
    ∧ (∀ (ts : List TranscriptionTask) (t : TranscriptionTask),
      (∃ h ∈ ts, h.priority = Priority.HIGH) →
      (∀ h ∈ ts, h.priority = Priority.HIGH ∨ h.priority = Priority.LOW) →
      dequeueNext ts = some t → t.priority = Priority.HIGH) := by
  refine ⟨?_, ?_, ?_⟩
  · intro a b ha hb
    exact ⟨lt_of_high_low a b ha hb, not_lt_of_low_high b a hb ha⟩
  · intro a b hpr hts
    constructor
    · simp [TranscriptionTask.lt, hpr, hts]
    · simp [TranscriptionTask.lt, hpr]
      exact le_of_lt hts
  · intro ts t hex hall hdq
    cases ts with
    | nil =>
      rcases hex with ⟨h, hm, _⟩
      cases hm
    | cons a rest =>
      simp only [dequeueNext, Option.some.injEq] at hdq
      subst hdq
      apply dequeueFold_high rest a
      · rcases hex with ⟨h, hm, hH⟩
        rcases List.mem_cons.mp hm with rfl | hmrest
        · exact Or.inl hH
        · exact Or.inr ⟨h, hmrest, hH⟩
      · exact hall a (List.mem_cons_self a rest)
      · exact fun h hm => hall h (List.mem_cons_of_mem a hm)

/-- Witness for claim5_priority_order at concrete tasks: the HIGH task
taskH, although submitted later (timestamp 5) than the LOW task taskL
(timestamp 3), compares smaller and so dequeues first. -/
theorem claim5_priority_order_witness :
    TranscriptionTask.lt taskH taskL = true ∧ TranscriptionTask.lt taskL taskH = false :=
  claim5_priority_order.1 taskH taskL rfl rfl

/-- C6: with the default arguments the context buffer holds
30 / 5 = 6 records; for every bound and every sequence of appends the
buffer never exceeds the bound; and appending to a full buffer of positive
bound evicts exactly the oldest record.  The last conjunct shows the
per-transcript processing step preserves the bound on the live context
buffer. -/
theorem claim6_context_bound :
    contextChunks cfgNone = 6
    ∧ (∀ (n : Nat) (xs : List ChunkInfo),
        ((xs.foldl (dequeAppend n) ([] : List ChunkInfo)).length ≤ n))
    ∧ (∀ (n : Nat) (buf : List ChunkInfo) (x : ChunkInfo), 0 < n →
        buf.length = n → dequeAppend n buf x = buf.drop 1 ++ [x])
    ∧ (∀ (cfg : Config) (curSil : Bool) (chunk : ChunkInfo) (t : String) (c : Core),
        c.contextBuffer.length ≤ contextChunks cfg →
        (handleChunk cfg curSil chunk t c).contextBuffer.length ≤ contextChunks cfg) := by
  refine ⟨rfl, ?_, ?_, ?_⟩
  · intro n xs
    exact dequeFold_le n xs [] (by simp)
  · intro n buf x hn h
    exact dequeAppend_evict n buf x hn h
  · intro cfg curSil chunk t c hc
    by_cases hact : c.isActive = true
    · have hctx : (handleChunk cfg curSil chunk t c).contextBuffer = c.contextBuffer := by
        unfold handleChunk
        rw [if_pos hact]
        dsimp only
        repeat' split
        all_goals rfl
      rw [hctx]
      exact hc
    · have hctx : (handleChunk cfg curSil chunk t c).contextBuffer =
          dequeAppend (contextChunks cfg) c.contextBuffer chunk := by
        unfold handleChunk
        rw [if_neg hact]
        dsimp only
        split <;> rfl
      rw [hctx]
      exact dequeAppend_length_le (contextChunks cfg) c.contextBuffer chunk hc

/-- Witness for claim6_context_bound: a full buffer of bound 1 evicts its
only record when a new record arrives. -/
theorem claim6_context_bound_witness :
    dequeAppend 1 [chunkA] chunkB = [chunkA].drop 1 ++ [chunkB] :=
  claim6_context_bound.2.2.1 1 [chunkA] chunkB (by decide) rfl

/-- C9: the worker transcription function returns the collaborator text
with surrounding whitespace trimmed, and on any collaborator failure it
returns the empty string instead of propagating the failure. -/
theorem claim9_transcribe :
    ∀ (collab : String → Option String → Except String String)
      (f : String) (l : Option String),
      (∀ t, collab f l = Except.ok t → transcribe_task collab f l = t.trim)
      ∧ (∀ e, collab f l = Except.error e → transcribe_task collab f l = "") := by
  intro collab f l
  constructor
  · intro t h
    simp [transcribe_task, h]
  · intro e h
    simp [transcribe_task, h]

/-- Witness for claim9_transcribe: a collaborator that fails yields the
empty string. -/
theorem claim9_transcribe_witness :
    transcribe_task (fun _ _ => Except.error "boom") "f.wav" none = "" :=
  (claim9_transcribe (fun _ _ => Except.error "boom") "f.wav" none).2 "boom" rfl

/-- C10: contains_wake_word without a classifier returns false for every
text, including texts containing the trigger word, so wake detection
fails closed when no classifier is supplied. -/
theorem claim10_no_classifier :
    (∀ t : String, contains_wake_word t none = false)
    ∧ contains_wake_word "hey goose" none = false ∧ gooseIn "hey goose" = true :=
  ⟨fun t => contains_wake_word_none t, contains_wake_word_none "hey goose", by decide⟩

/-- C7: the PASSIVE to ACTIVE transition happens exactly when the resolved
transcript is nonempty and contains_wake_word answers true; for a
transcript lacking the trigger substring, contains_wake_word answers false
and never invokes the classifier, whatever the classifier is; and with a
classifier supplied, contains_wake_word is the conjunction of the
substring test and the classifier verdict. -/
theorem claim7_wake_gate :
    (∀ (t : String) (cl : Option (String → Bool)), gooseIn t = false →
      contains_wake_word t cl = false ∧ wakeClassifierCalls t cl = 0)
    ∧ (∀ (t : String) (c : String → Bool),
      contains_wake_word t (some c) = (gooseIn t && c t))
    ∧ (∀ (cfg : Config) (curSil : Bool) (chunk : ChunkInfo) (t : String) (c : Core),
      c.isActive = false →
      ((handleChunk cfg curSil chunk t c).isActive = true ↔
        (t ≠ "" ∧ contains_wake_word t cfg.classifier = true))) := by
  refine ⟨?_, ?_, ?_⟩
  · intro t cl hg
    constructor <;> simp [contains_wake_word, wakeClassifierCalls, hg]
  · intro t c
    by_cases hg : gooseIn t = true <;> simp [contains_wake_word, hg]
  · intro cfg curSil chunk t c hact
    by_cases hcond : (t != "" && contains_wake_word t cfg.classifier) = true
    · have hres : (handleChunk cfg curSil chunk t c).isActive = true := by
        unfold handleChunk
        rw [if_neg (by simp [hact])]
        dsimp only
        rw [if_pos hcond]
      have hrhs : t ≠ "" ∧ contains_wake_word t cfg.classifier = true := by
        rw [Bool.and_eq_true, bne_iff_ne] at hcond
        exact hcond
      exact iff_of_true hres hrhs
    · have hres : (handleChunk cfg curSil chunk t c).isActive = false := by
        unfold handleChunk
        rw [if_neg (by simp [hact])]
        dsimp only
        rw [if_neg hcond]
        exact hact
      refine iff_of_false (by simp [hres]) ?_
      intro hh
      apply hcond
      rw [Bool.and_eq_true, bne_iff_ne]
      exact hh

/-- Witness for claim7_wake_gate: a text without the trigger substring
yields no wake and zero classifier invocations even under an
always-positive classifier. -/
theorem claim7_wake_gate_witness :
    contains_wake_word "hello" (some fun _ => true) = false
    ∧ wakeClassifierCalls "hello" (some fun _ => true) = 0 :=
  claim7_wake_gate.1 "hello" (some fun _ => true) (by decide)

/-- C1 counterexample: in run1 the transcript of the first-captured
segment (task 0, file 1) resolves one polling pass after the transcript of
the second-captured segment (task 1, file 2), and the context buffer ends
up holding the records in completion order [file 2, file 1], not in
segment creation order [file 1, file 2]. -/
theorem claim1_counterexample :
    run1.contextBuffer.map (fun c => c.fileId) = [2, 1]
    ∧ run1.contextBuffer.map (fun c => c.transcript) = [some "bee", some "aye"]
    ∧ (run1.contextBuffer.map fun c => c.fileId) ≠ [1, 2] := by decide

/-- In PASSIVE mode a resolved transcript that fails the wake gate only
appends its chunk to the context buffer. -/
theorem handleChunk_passive_no_wake (cfg : Config) (curSil : Bool)
    (chunk : ChunkInfo) (t : String) (c : Core) (hact : c.isActive = false)
    (hcond : (t != "" && contains_wake_word t cfg.classifier) = false) :
    handleChunk cfg curSil chunk t c
      = { c with contextBuffer := (dequeAppend (contextChunks cfg)
            c.contextBuffer chunk) } := by
  unfold handleChunk
  rw [if_neg (by simp [hact])]
  dsimp only
  rw [if_neg (by simp [hcond])]

/-- In ACTIVE mode a resolved transcript that does not reach the silence
threshold only appends its chunk to the conversation and updates the
counter from the current silence flag. -/
theorem handleChunk_active_no_finalize (cfg : Config) (curSil : Bool)
    (chunk : ChunkInfo) (t : String) (c : Core) (hact : c.isActive = true)
    (hsc : ¬ silenceChunks cfg ≤ (if curSil then c.silenceCounter + 1 else 0)) :
    handleChunk cfg curSil chunk t c
      = { c with
          activeChunks := (c.activeChunks ++ [chunk]),
          silenceCounter := (if curSil then c.silenceCounter + 1 else 0) } := by
  unfold handleChunk
  rw [if_pos hact]
  dsimp only
  rw [if_neg hsc]

/-- C1 amended: appends happen at transcript-resolution time, in
completion order, to whichever buffer owns the record then.  Any polling
pass that stays PASSIVE (no resolved transcript passes the wake gate, the
classifier otherwise arbitrary) appends to the ContextBuffer exactly the
chunks it resolves, folded in pending-list (creation) order; and any
polling pass that stays ACTIVE (the silence threshold not reached during
the pass) appends to the ConversationRecord exactly the chunks it
resolves, in the same order.  Records resolved in a later pass are
therefore appended after every record resolved in an earlier pass,
whatever the creation order was. -/
theorem claim1_amended :
    (∀ (cfg : Config) (curSil : Bool) (res : Nat → Option String)
        (pending : List PendingTask) (c : Core),
      c.isActive = false →
      (∀ task ∈ pending, ∀ t, res task.taskId = some t →
        (t != "" && contains_wake_word t cfg.classifier) = false) →
      (genericPass cfg curSil res pending c).2.1.contextBuffer
        = (resolvedChunks res pending).foldl (dequeAppend (contextChunks cfg))
            c.contextBuffer
      ∧ (genericPass cfg curSil res pending c).2.1.isActive = false)
    ∧ (∀ (cfg : Config) (curSil : Bool) (res : Nat → Option String)
        (pending : List PendingTask) (c : Core),
      c.isActive = true →
      (if curSil then c.silenceCounter + (resolvedChunks res pending).length else 0)
          < silenceChunks cfg →
      (genericPass cfg curSil res pending c).2.1.activeChunks
        = c.activeChunks ++ resolvedChunks res pending
      ∧ (genericPass cfg curSil res pending c).2.1.isActive = true) := by
  constructor
  · intro cfg curSil res pending c
    induction pending generalizing c with
    | nil =>
      intro hact _
      exact ⟨by simp [genericPass, resolvedChunks], by simpa [genericPass] using hact⟩
    | cons task rest ih =>
      intro hact hnw
      have hnwrest : ∀ task2 ∈ rest, ∀ t, res task2.taskId = some t →
          (t != "" && contains_wake_word t cfg.classifier) = false :=
        fun task2 hm t ht => hnw task2 (List.mem_cons_of_mem task hm) t ht
      by_cases hp : task.processed = true
      · have hskip : resolvedChunks res (task :: rest) = resolvedChunks res rest := by
          simp [resolvedChunks, hp]
        have hstep : (genericPass cfg curSil res (task :: rest) c).2.1
            = (genericPass cfg curSil res rest c).2.1 := by
          simp [genericPass, hp]
        rw [hstep, hskip]
        exact ih c hact hnwrest
      · cases hres : res task.taskId with
        | none =>
          have hskip : resolvedChunks res (task :: rest) = resolvedChunks res rest := by
            simp [resolvedChunks, hp, hres]
          have hstep : (genericPass cfg curSil res (task :: rest) c).2.1
              = (genericPass cfg curSil res rest c).2.1 := by
            simp [genericPass, hp, hres]
          rw [hstep, hskip]
          exact ih c hact hnwrest
        | some t =>
          have hcond : (t != "" && contains_wake_word t cfg.classifier) = false :=
            hnw task (List.mem_cons_self task rest) t hres
          have hhc := handleChunk_passive_no_wake cfg curSil
            { task.chunk with transcript := some t } t c hact hcond
          have hact1 :
              (handleChunk cfg curSil { task.chunk with transcript := some t } t c).isActive
                = false := by
            rw [hhc]
            exact hact
          have h2 := ih (handleChunk cfg curSil { task.chunk with transcript := some t } t c)
            hact1 hnwrest
          have hstep : (genericPass cfg curSil res (task :: rest) c).2.1
              = (genericPass cfg curSil res rest
                  (handleChunk cfg curSil { task.chunk with transcript := some t } t c)).2.1 := by
            simp [genericPass, hp, hres]
          have hcons : resolvedChunks res (task :: rest)
              = { task.chunk with transcript := some t } :: resolvedChunks res rest := by
            simp [resolvedChunks, hp, hres]
          constructor
          · rw [hstep, h2.1, hhc, hcons]
            simp
          · rw [hstep]
            exact h2.2
  · intro cfg curSil res pending c
    induction pending generalizing c with
    | nil =>
      intro hact _
      exact ⟨by simp [genericPass, resolvedChunks], by simpa [genericPass] using hact⟩
    | cons task rest ih =>
      intro hact hth
      by_cases hp : task.processed = true
      · have hskip : resolvedChunks res (task :: rest) = resolvedChunks res rest := by
          simp [resolvedChunks, hp]
        have hstep : (genericPass cfg curSil res (task :: rest) c).2.1
            = (genericPass cfg curSil res rest c).2.1 := by
          simp [genericPass, hp]
        rw [hskip] at hth
        rw [hstep, hskip]
        exact ih c hact hth
      · cases hres : res task.taskId with
        | none =>
          have hskip : resolvedChunks res (task :: rest) = resolvedChunks res rest := by
            simp [resolvedChunks, hp, hres]
          have hstep : (genericPass cfg curSil res (task :: rest) c).2.1
              = (genericPass cfg curSil res rest c).2.1 := by
            simp [genericPass, hp, hres]
          rw [hskip] at hth
          rw [hstep, hskip]
          exact ih c hact hth
        | some t =>
          have hcons : resolvedChunks res (task :: rest)
              = { task.chunk with transcript := some t } :: resolvedChunks res rest := by
            simp [resolvedChunks, hp, hres]
          rw [hcons] at hth
          have hsc : ¬ silenceChunks cfg ≤ (if curSil then c.silenceCounter + 1 else 0) := by
            cases curSil with
            | false =>
              simp at hth ⊢
              omega
            | true =>
              simp at hth ⊢
              omega
          have hhc := handleChunk_active_no_finalize cfg curSil
            { task.chunk with transcript := some t } t c hact hsc
          have hact1 :
              (handleChunk cfg curSil { task.chunk with transcript := some t } t c).isActive
                = true := by
            rw [hhc]
            exact hact
          have hth2 : (if curSil then
              (handleChunk cfg curSil { task.chunk with transcript := some t } t c).silenceCounter
                + (resolvedChunks res rest).length else 0) < silenceChunks cfg := by
            rw [hhc]
            cases curSil with
            | false =>
              simp at hth ⊢
              omega
            | true =>
              simp at hth ⊢
              omega
          have h2 := ih (handleChunk cfg curSil { task.chunk with transcript := some t } t c)
            hact1 hth2
          have hstep : (genericPass cfg curSil res (task :: rest) c).2.1
              = (genericPass cfg curSil res rest
                  (handleChunk cfg curSil { task.chunk with transcript := some t } t c)).2.1 := by
            simp [genericPass, hp, hres]
          constructor
          · rw [hstep, h2.1, hhc, hcons]
            simp
          · rw [hstep]
            exact h2.2

/-- Witness for claim1_amended: a PASSIVE pass over one resolvable task
whose transcript "aye" fails the wake gate appends it to the context
buffer, and an ACTIVE pass (threshold 2, current segment not silent) over
one resolvable task appends it to the conversation record. -/
theorem claim1_amended_witness :
    ((genericPass cfgNone false resAye pendA initialState.core).2.1.contextBuffer
        = (resolvedChunks resAye pendA).foldl (dequeAppend (contextChunks cfgNone))
            initialState.core.contextBuffer
      ∧ (genericPass cfgNone false resAye pendA initialState.core).2.1.isActive = false)
    ∧ ((genericPass cfgSil10 false resUm pendA coreActive).2.1.activeChunks
        = coreActive.activeChunks ++ resolvedChunks resUm pendA
      ∧ (genericPass cfgSil10 false resUm pendA coreActive).2.1.isActive = true) :=
  ⟨claim1_amended.1 cfgNone false resAye pendA initialState.core rfl (by
      intro task hm t ht
      simp [pendA] at hm
      subst hm
      simp [resAye] at ht
      subst ht
      decide),
   claim1_amended.2 cfgSil10 false resUm pendA coreActive rfl (by decide)⟩

/-- C8 counterexample: in run8 the silent segment (file 2, audio [0]) has
its transcript processed during the iteration that captured the non-silent
segment file 3 (audio [1]); the silence counter is reset to 0 by that
fresher silence flag although the processed segment itself was silent, so
the update did not use the processed segment's own flag (which would have
incremented the counter to 1). -/
theorem claim8_counterexample :
    run8.silenceCounter = 0
    ∧ is_silence [0] SILENCE_THRESHOLD_NUM SILENCE_THRESHOLD_DEN = true
    ∧ is_silence [1] SILENCE_THRESHOLD_NUM SILENCE_THRESHOLD_DEN = false
    ∧ run8.isActive = true
    ∧ run8.activeChunks.map (fun c => (c.fileId, c.transcript))
        = [(1, some "hey goose"), (2, some "um")] := by decide

/-- C8 amended: in the ACTIVE state the silence-counter update depends
only on the silence flag of the segment captured in the current iteration
(currentIsSilence): increment on a silent current segment, reset to 0 on a
non-silent one (then zeroed again if finalization fires).  The processed
chunk itself, in particular its own audio, does not enter the update. -/
theorem claim8_amended (cfg : Config) (curSil : Bool) (chunk : ChunkInfo)
    (t : String) (c : Core) (hact : c.isActive = true) :
    (handleChunk cfg curSil chunk t c).silenceCounter =
      (if silenceChunks cfg ≤ (if curSil then c.silenceCounter + 1 else 0) then 0
       else (if curSil then c.silenceCounter + 1 else 0)) := by
  unfold handleChunk
  rw [if_pos hact]
  dsimp only
  repeat' split
  all_goals rfl

/-- Witness for claim8_amended: a concrete active state and chunk. -/
theorem claim8_amended_witness :
    (handleChunk cfgSil10 true chunkB "um" coreActive).silenceCounter =
      (if silenceChunks cfgSil10 ≤ (if true then coreActive.silenceCounter + 1 else 0)
       then 0
       else (if true then coreActive.silenceCounter + 1 else 0)) :=
  claim8_amended cfgSil10 true chunkB "um" coreActive rfl

/-- C2: evaluation of the code at the failing input.  With the default
arguments the threshold is the floor 3 / 5 = 0, so in run23 the very first
processed ACTIVE transcript finalizes the conversation (counter becomes 1,
state returns to passive) although no segment was silent; the claim (and
the ceil of the spec) requires one consecutive silent segment. -/
theorem claim2_code_evaluation :
    silenceChunks cfgTrue = 0
    ∧ run23.isActive = false
    ∧ run23.conversationCounter = 1
    ∧ run23.silenceCounter = 0
    ∧ is_silence [1] SILENCE_THRESHOLD_NUM SILENCE_THRESHOLD_DEN = false
    ∧ is_silence [2] SILENCE_THRESHOLD_NUM SILENCE_THRESHOLD_DEN = false := by decide

/-- C3: evaluation of the code at the failing input.  In run23 the context
buffer held exactly one record (file 1, audio [1], transcript "hey goose")
at wake time; the persisted conversation contains that record's audio and
transcript twice — once from the direct context_buffer walk of the
finalization block and once from the copy seeded into
active_conversation_chunks at wake time — violating the exactly-once
claim. -/
theorem claim3_code_evaluation :
    run23.conversations.map (fun s => s.audioParts) = [[some [1], some [1], some [2]]]
    ∧ run23.conversations.map (fun s => s.transcript)
        = ["hey goose hey goose hello there"]
    ∧ run23.contextBuffer.map (fun c => (c.fileId, c.audio)) = [(1, some [1])] := by decide

/-- C4: evaluation of the code at the failing input.  In run4 the periodic
long task (id 2, file 100) resolves at the generic polling pass of the
next iteration, which lacks an is_long guard: its transcript record
(with audio None) is appended to the context buffer as if it were an
ordinary chunk, and the task is deleted from the pending set before the
dedicated periodic pass runs, so no periodic transcript artifact is ever
persisted. -/
theorem claim4_code_evaluation :
    run4.periodicTranscripts = []
    ∧ run4.contextBuffer.map (fun c => (c.fileId, c.audio, c.transcript))
        = [(1, some [1], some "ambient room noise"),
           (100, none, some "periodic ambient text")]
    ∧ run4.isActive = false := by decide

end ListenPy
